import Mathlib

/-!
Verification development for the `erltf` encoder (`encode.go`, `erltf.go`).

The Go source is shallowly embedded: the encoder's byte buffer
(`bytes.Buffer` contents) is a `List Nat` of byte values, the dynamically
typed input value (`any` inspected through `reflect`) is the inductive
`GoValue`, and `encoder.encode` becomes the function `encode` below.
A Go `panic` is modelled as the result constructor `EncRes.gopanic`,
a returned `error` as `EncRes.fail` (carrying the returned byte count),
and a normal `(n, nil)` return as `EncRes.ok n`.
-/

namespace Erltf

/-- `const TermFormatVersion byte = 131` (erltf.go). -/
def TermFormatVersion : Nat := 131

/-- Term identifier values from the `iota + 70` constant block in erltf.go. -/
def NewFloatExt : Nat := 70

def SmallIntegerExt : Nat := 97

def IntegerExt : Nat := 98

def NilExt : Nat := 106

def StringExt : Nat := 107

def ListExt : Nat := 108

def BinaryExt : Nat := 109

def SmallBigExt : Nat := 110

def LargeBigExt : Nat := 111

def MapExt : Nat := 116

def AtomUTF8Ext : Nat := 118

def SmallAtomUTF8Ext : Nat := 119

/-- `var DefaultBufferSize = 1024 * 1024` (encode.go line 23). -/
def DefaultBufferSize : Nat := 1024 * 1024

/-- `var DefaultEncodeRecursionDepth = 256` (encode.go line 27).
Note: nothing in encode.go ever reads this variable. -/
def DefaultEncodeRecursionDepth : Nat := 256

/-- The encoder buffer: the contents of the `bytes.Buffer`, one `Nat` per byte. -/
abbrev Buf := List Nat

/-- `binary.LittleEndian.AppendUint16`: the two little-endian bytes of `n`. -/
def le16 (n : Nat) : Buf := [n % 256, n / 256 % 256]

/-- `binary.LittleEndian.AppendUint32`: the four little-endian bytes of `n`. -/
def le32 (n : Nat) : Buf :=
  [n % 256, n / 256 % 256, n / 65536 % 256, n / 16777216 % 256]

/-- `binary.LittleEndian.AppendUint64`: the eight little-endian bytes of `n`. -/
def le64 (n : Nat) : Buf :=
  [n % 256, n / 256 % 256, n / 65536 % 256, n / 16777216 % 256,
   n / 4294967296 % 256, n / 1099511627776 % 256,
   n / 281474976710656 % 256, n / 72057594037927936 % 256]

/-- `binary.BigEndian.AppendUint32`: the four big-endian bytes of `n`. -/
def be32 (n : Nat) : Buf :=
  [n / 16777216 % 256, n / 65536 % 256, n / 256 % 256, n % 256]

/-- `binary.BigEndian.AppendUint64`: the eight big-endian bytes of `n`. -/
def be64 (n : Nat) : Buf :=
  [n / 72057594037927936 % 256, n / 281474976710656 % 256,
   n / 1099511627776 % 256, n / 4294967296 % 256,
   n / 16777216 % 256, n / 65536 % 256, n / 256 % 256, n % 256]

/-- `nilBuf = []byte{byte(SmallAtomUTF8Ext), 3, 'n', 'i', 'l'}` (encode.go line 69). -/
def nilBuf : Buf := [119, 3, 110, 105, 108]

/-- `trueBuf = []byte{byte(SmallAtomUTF8Ext), 4, 't', 'r', 'u', 'e'}` (encode.go line 70). -/
def trueBuf : Buf := [119, 4, 116, 114, 117, 101]

/-- `falseBuf = []byte{byte(SmallAtomUTF8Ext), 5, 'f', 'a', 'l', 's', 'e'}` (encode.go line 71). -/
def falseBuf : Buf := [119, 5, 102, 97, 108, 115, 101]

/-- The signed integer kinds of Go values that can reach the encoder's switch.
`i8` is `reflect.Int8` and `iInt` is `reflect.Int` (the default `int` type);
neither of these two appears in any case of the switch in `encoder.encode`. -/
inductive SIntKind where
  | i8
  | i16
  | i32
  | i64
  | iInt
  deriving DecidableEq

/-- The unsigned integer kinds other than `reflect.Uint8` (which has its own
switch case). `uInt` is `reflect.Uint`, which appears in no case of the switch. -/
inductive UIntKind where
  | u16
  | u32
  | u64
  | uInt
  deriving DecidableEq

/-- The kinds enumerated in the first case of the switch in `encoder.encode`
(lines 106-115): `Chan, Func, Complex64, Complex128, Uintptr, UnsafePointer`.
All are handled identically by an unconditional `panic`. -/
inductive BadKind where
  | chanKind
  | funcKind
  | cplx64
  | cplx128
  | uintptrKind
  | rawPtrKind
  deriving DecidableEq

/-- The errors defined in encode.go.  `ErrEncodeRecursionDepthExceeded` is
declared in the source (line 87) but no statement of `encoder.encode` ever
produces it. -/
inductive EncError where
  | ErrUnsupportedTypeEncode
  | ErrStringTooLong
  | ErrListTooLarge
  | ErrEncodeRecursionDepthExceeded
  | ErrTooManyPairs
  deriving DecidableEq

/-- The distinct `panic` sites reachable from `encoder.encode`:
* `invalidTypeSerialize` — line 115, the unsupported-kind case;
* `mapKeyNotString` — line 245, map key kind is not `reflect.String`;
* `structTooManyFields` — line 224, struct with `>= math.MaxInt32` fields;
* `zeroValueInterface` — `reflect.Value.Interface` called on the zero
  `reflect.Value` produced by `Elem()` of a nil pointer (line 118);
* `unexportedField` — `reflect.Value.Interface` called on an unexported
  struct field (line 238);
* `indexOutOfRange` — the out-of-bounds slice write `buf[3+enc] = ...`
  (lines 144 and 163): `buf` has length 3, so index `3+enc` panics. -/
inductive PanicMsg where
  | invalidTypeSerialize
  | mapKeyNotString
  | structTooManyFields
  | zeroValueInterface
  | unexportedField
  | indexOutOfRange
  deriving DecidableEq

/-- Result of one `encode` call. Go's `(n int, err error)` pair becomes
`ok n` (err = nil) or `fail n e`; a Go `panic`, which unwinds without
returning, becomes `gopanic p`. -/
inductive EncRes where
  | ok (n : Nat)
  | fail (n : Nat) (e : EncError)
  | gopanic (p : PanicMsg)
  deriving DecidableEq

mutual
/-- A Go value as seen by `reflect.ValueOf` inside `encoder.encode`.

* `VNilIface` is an untyped or interface-typed nil `any`: `reflect.ValueOf`
  yields an invalid `reflect.Value` (encode.go line 100).
* `VBool`, `VUint8`, `VFloat`, `VString` carry the data the corresponding
  switch case reads (`VFloat` carries `math.Float64bits(val.Float())`;
  `VString` carries the UTF-8 bytes).
* `VInt w d` / `VUint w d` carry the kind of the declared Go type and the
  value (`val.Int()` as a mathematical integer / `val.Uint()` as a natural).
* `VPtr` is a typed pointer; `none` is a nil pointer.
* `VSlice` covers `reflect.Array` and `reflect.Slice` (one switch case).
* `VStruct` is a struct with its fields in declaration order.
* `VMap keyStr pairs` is a map value; `keyStr` records whether
  `val.Type().Key().Kind() == reflect.String`, and keys of string-keyed
  maps are the key's bytes.
* `VBad` covers the six kinds with no ETF representation. -/
inductive GoValue where
  | VNilIface
  | VBool (b : Bool)
  | VUint8 (n : Nat)
  | VInt (w : SIntKind) (d : Int)
  | VUint (w : UIntKind) (d : Nat)
  | VFloat (bits : Nat)
  | VString (s : List Nat)
  | VPtr (target : Option GoValue)
  | VSlice (elems : List GoValue)
  | VStruct (fields : List GoField)
  | VMap (keyStr : Bool) (pairs : List (GoValue × GoValue))
  | VBad (k : BadKind)

/-- One struct field as `reflect.StructField` exposes it: its name, its
`erltf` tag (empty list when the tag is absent), whether it is exported
(`reflect.Value.Interface` panics on unexported fields), and its value. -/
inductive GoField where
  | mk (name : List Nat) (tag : List Nat) (exported : Bool) (value : GoValue)
end

/-- Field name accessor. -/
def GoField.name : GoField → List Nat
  | .mk n _ _ _ => n

/-- Field tag accessor. -/
def GoField.tag : GoField → List Nat
  | .mk _ t _ _ => t

/-- Field exportedness accessor. -/
def GoField.exported : GoField → Bool
  | .mk _ _ e _ => e

/-- Field value accessor. -/
def GoField.value : GoField → GoValue
  | .mk _ _ _ v => v

mutual
/-- Size measure used only for the termination of `encode`.  Slice elements
do not count: the slice case hands its elements to `encode` wrapped in a
fresh `reflect.Value`, whose encoding panics without ever reading them
(see `encodeReflectValue`). -/
def gsize : GoValue → Nat
  | .VPtr (some t) => 1 + gsize t
  | .VStruct fields => 2 + fieldsSize fields
  | .VMap _ pairs => 1 + pairsSize pairs
  | _ => 1

/-- Measure of a key/value pair list. -/
def pairsSize : List (GoValue × GoValue) → Nat
  | [] => 0
  | (k, v) :: rest => 1 + gsize k + gsize v + pairsSize rest

/-- Measure of a struct field list. -/
def fieldsSize : List GoField → Nat
  | [] => 0
  | .mk _ _ _ v :: rest => 2 + gsize v + fieldsSize rest
end

/-- Tag resolution for one struct field (encode.go lines 231-236):
`tag := fieldTyp.Tag.Get("erltf"); if tag == "" { tag = fieldTyp.Name }
else if tag == "-" { continue }`.  `none` means the field is skipped;
note that the `"-"` comparison is only reached when the tag is non-empty. -/
def resolveTag (f : GoField) : Option (List Nat) :=
  if f.tag = [] then some f.name
  else if f.tag = [45] then none
  else some f.tag

/-- Go map assignment `mapped[tag] = v`: replace the binding if the key is
present, otherwise add it. -/
def mapInsert : List (List Nat × GoValue) → List Nat → GoValue → List (List Nat × GoValue)
  | [], k, v => [(k, v)]
  | (k', v') :: rest, k, v =>
      if k' = k then (k, v) :: rest else (k', v') :: mapInsert rest k v

/-- The struct-to-map projection loop of encode.go lines 228-239.  For each
field: resolve the tag (skipping `"-"`), then store
`mapped[tag] = val.Field(i).Interface()`.  `reflect.Value.Interface` panics
on an unexported field, which aborts the whole encode call.

Go map iteration order is unspecified; the binding list produced here keeps
insertion order, and no theorem below depends on the order of a successfully
projected map. -/
def projectFields : List GoField → List (List Nat × GoValue) →
    Except PanicMsg (List (List Nat × GoValue))
  | [], mapped => .ok mapped
  | f :: rest, mapped =>
      match resolveTag f with
      | none => projectFields rest mapped
      | some tag =>
          if f.exported then projectFields rest (mapInsert mapped tag f.value)
          else .error .unexportedField

/-- String-keyed bindings viewed as map pairs: the key becomes the Go string
it is (`k.Interface()` of a `map[string]any` key has kind String). -/
def toPairs (m : List (List Nat × GoValue)) : List (GoValue × GoValue) :=
  m.map (fun p => (.VString p.1, p.2))

/-- The fields of the struct `reflect.Value` itself: `typ_ *abi.Type`,
the raw data pointer `ptr`, and the embedded `flag` word.  All three are
unexported and none carries an `erltf` tag.  Their contents are runtime
metadata that the encoder never manages to read — the struct case calls
`val.Field(0).Interface()`, which panics on the first (unexported) field —
so the `value` component is an irrelevant placeholder. -/
def reflectValueFields : List GoField :=
  [.mk [116, 121, 112, 95] [] false .VNilIface,
   .mk [112, 116, 114] [] false .VNilIface,
   .mk [102, 108, 97, 103] [] false .VNilIface]

/-- What `encoder.encode` does when handed a `reflect.Value` as its `any`
argument — which is exactly what the array/slice case does at line 212,
passing `val.Index(i)` instead of `val.Index(i).Interface()`.
`reflect.ValueOf` then sees a value of the struct type `reflect.Value`
(3 fields, fewer than `math.MaxInt32`), so the struct case runs the
projection loop over `reflectValueFields` and panics at the first field.
The lemma `encodeReflectValue_matches_projection` below ties this constant
result to the general projection function. -/
def encodeReflectValue (st : Buf) : EncRes × Buf :=
  (.gopanic .unexportedField, st)

/-- The element loop of the array/slice case (encode.go lines 211-217).
Every iteration encodes `val.Index(i)` — a `reflect.Value`, see
`encodeReflectValue` — so only the element count matters.  On an error the
loop returns the byte count accumulated so far together with the error;
a panic unwinds. -/
def encodeElems : Nat → Buf → Nat → EncRes × Buf
  | 0, st, n => (.ok n, st)
  | k + 1, st, n =>
      match encodeReflectValue st with
      | (.ok m, st') => encodeElems k st' (n + m)
      | (.fail _ e, st') => (.fail n e, st')
      | (.gopanic p, st') => (.gopanic p, st')

/-- The body of the `reflect.Array, reflect.Slice` case (encode.go lines
196-219), parameterised by the length of the value (a string that falls
through from the String case also lands here, with its byte length).
After the element loop the function returns `e.buf.Write(nilBuf)`, i.e.
the pair `(len(nilBuf), nil) = (5, nil)` — the accumulated count is
discarded by the source. -/
def sliceBody (length : Nat) (st : Buf) : EncRes × Buf :=
  if length > 4294967295 then (.fail 0 .ErrListTooLarge, st)
  else
    let st1 := st ++ [108] ++ be32 length
    match encodeElems length st1 5 with
    | (.ok _, st2) => (.ok 5, st2 ++ nilBuf)
    | (.fail n e, st2) => (.fail n e, st2)
    | (.gopanic p, st2) => (.gopanic p, st2)

/-- `encoder.EncodeAsBinaryETF` (encode.go lines 284-295): length check
against `math.MaxUint32`, then `[BinaryExt] ++ big-endian length ++ bytes`. -/
def encodeAsBinaryETF (v : List Nat) (st : Buf) : EncRes × Buf :=
  if v.length > 4294967295 then (.fail 0 .ErrStringTooLong, st)
  else (.ok (5 + v.length), st ++ [109] ++ be32 v.length ++ v)

/-- `func (e *encoder) Write(p []byte) (n int, err error) { return e.EncodeAsBinaryETF(p) }`
(encode.go line 65). -/
def encWrite (p : List Nat) (st : Buf) : EncRes × Buf := encodeAsBinaryETF p st

/-- Two's-complement wrap of an integer into `[0, 2^64)`, i.e. Go's
`uint64(d)` conversion of an `int64`. -/
def wrap64 (d : Int) : Nat := (d % 18446744073709551616).toNat

/-- Go negation of an `int64`: two's complement, so `-math.MinInt64`
overflows back to `math.MinInt64`. -/
def i64neg (d : Int) : Int :=
  ((-d + 9223372036854775808) % 18446744073709551616) - 9223372036854775808

/-- The body of the `reflect.Int16, reflect.Int32, reflect.Int64` case
(encode.go lines 126-152).  `size` is `val.Type().Size()` (2, 4 or 8).

* `buf := make([]byte, 3, 3+size)` has length 3 and capacity `3+size`;
  the tag is `LargeBigExt` when the capacity exceeds 7, else `SmallBigExt`.
* The sign byte is set, negating `d` (with `int64` wrap-around) when it is
  negative.
* The magnitude loop writes `buf[3+enc]`, an out-of-range index on a
  length-3 slice: its first iteration panics.  The loop body therefore only
  fails to run when the (possibly negated) value is not positive, i.e. for
  `d = 0` and for `d = math.MinInt64` (whose negation is itself).
* When no panic occurs the source then appends `uint32(d)` resp.
  `uint64(d)` — four or eight little-endian bytes of the reassigned `d` —
  after the three bytes already in `buf`, and writes the result. -/
def encodeSignedBig (size : Nat) (d : Int) (st : Buf) : EncRes × Buf :=
  let tag : Nat := if 3 + size > 7 then 111 else 110
  let s : Nat := if d ≥ 0 then 0 else 1
  let d2 : Int := if d ≥ 0 then d else i64neg d
  if d2 > 0 then (.gopanic .indexOutOfRange, st)
  else if tag = 110 then
    (.ok 7, st ++ [tag, 0, s] ++ le32 (wrap64 d2 % 4294967296))
  else
    (.ok 11, st ++ [tag, 0, s] ++ le64 (wrap64 d2))

/-- The body of the `reflect.Uint16, reflect.Uint32, reflect.Uint64` case
(encode.go lines 153-172); same layout as the signed case with sign byte 0,
and the same out-of-range `buf[3+enc]` write panicking as soon as the value
is positive. -/
def encodeUnsignedBig (size : Nat) (d : Nat) (st : Buf) : EncRes × Buf :=
  let tag : Nat := if 3 + size > 7 then 111 else 110
  if d > 0 then (.gopanic .indexOutOfRange, st)
  else if tag = 110 then
    (.ok 7, st ++ [tag, 0, 0] ++ le32 (d % 4294967296))
  else
    (.ok 11, st ++ [tag, 0, 0] ++ le64 (d % 18446744073709551616))

/-- Measure of a string-keyed binding list, matching `fieldsSize`. -/
def bindsSize : List (List Nat × GoValue) → Nat
  | [] => 0
  | (_, v) :: rest => 2 + gsize v + bindsSize rest

theorem pairsSize_toPairs (m : List (List Nat × GoValue)) :
    pairsSize (toPairs m) = bindsSize m := by
  induction m with
  | nil => rfl
  | cons p rest ih =>
      obtain ⟨k, v⟩ := p
      simp only [toPairs, List.map_cons, pairsSize, bindsSize, gsize] at *
      omega

theorem bindsSize_mapInsert (m : List (List Nat × GoValue)) (k : List Nat) (v : GoValue) :
    bindsSize (mapInsert m k v) ≤ bindsSize m + 2 + gsize v := by
  induction m with
  | nil => simp [mapInsert, bindsSize] <;> omega
  | cons p rest ih =>
      obtain ⟨k', v'⟩ := p
      by_cases h : k' = k
      · simp only [mapInsert, h, if_pos, bindsSize]
        omega
      · simp only [mapInsert, if_neg h, bindsSize]
        omega

theorem projectFields_bindsSize (fields : List GoField) :
    ∀ mapped m, projectFields fields mapped = .ok m →
      bindsSize m ≤ bindsSize mapped + fieldsSize fields := by
  induction fields with
  | nil =>
      intro mapped m h
      simp [projectFields] at h
      simp [h, fieldsSize]
  | cons f rest ih =>
      intro mapped m h
      obtain ⟨nm, tg, ex, v⟩ := f
      simp only [projectFields] at h
      split at h
      next =>
          have := ih mapped m h
          simp only [fieldsSize] at *
          omega
      next tag hr =>
          split at h
          next hex =>
            have h1 := ih _ _ h
            have h2 := bindsSize_mapInsert mapped tag (GoField.value (.mk nm tg ex v))
            simp only [fieldsSize, GoField.value] at *
            omega
          next hex => exact absurd h (by simp)

mutual
/-- Shallow embedding of `func (e *encoder) encode(v any, nest int)`
(encode.go lines 96-280).  `ab` is the value of the package-level switch
`AlwaysEncodeStringsAsBinary` read at line 183, `nest` the depth argument
(decremented on recursion, never tested), `st` the buffer contents.

Case-by-case correspondence with the source switch:
* invalid value (untyped/interface nil) → write `nilBuf` (line 101);
* `Chan, Func, Complex64, Complex128, Uintptr, UnsafePointer` → panic
  (line 115);
* `Pointer` → `reflect.ValueOf(v).Elem().Interface()`: for a nil pointer
  `Elem()` is the zero `reflect.Value` and `Interface()` panics; otherwise
  recurse on the pointee with `nest-1` (line 118).  (`Interface` kind is
  listed in the source but unreachable: `reflect.ValueOf` on an `any`
  never reports kind Interface.)
* `Bool` → `trueBuf` / `falseBuf` (lines 119-123);
* `Uint8` → `[SmallIntegerExt, byte(val.Uint())]` (line 125);
* `Int16, Int32, Int64` / `Uint16, Uint32, Uint64` → the big-integer
  bodies `encodeSignedBig` / `encodeUnsignedBig` with
  `size = val.Type().Size()`; kinds `Int8`, `Int` and `Uint` appear in no
  case, so they reach the default `return 0, ErrUnsupportedTypeEncode`
  (line 279);
* `Float32, Float64` → `[NewFloatExt] ++ big-endian Float64bits` (line 177);
* `String` → binary when `ab`; String form when `len < math.MaxUint16`;
  otherwise `fallthrough` into the array/slice body (line 195);
* `Array, Slice` → `sliceBody` (lines 196-219);
* `Struct` → field-count panic guard, projection to a `map[string]any`,
  then `fallthrough` into the map body with the projected value
  (lines 220-241);
* `Map` → key-kind panic guard, pair-count guard, `[MapExt] ++ big-endian
  count`, then the pair loop (lines 242-276). -/
def encode (ab : Bool) (v : GoValue) (nest : Int) (st : Buf) : EncRes × Buf :=
  match v with
  | .VNilIface => (.ok 5, st ++ nilBuf)
  | .VBad _ => (.gopanic .invalidTypeSerialize, st)
  | .VPtr none => (.gopanic .zeroValueInterface, st)
  | .VPtr (some t) => encode ab t (nest - 1) st
  | .VBool b => if b then (.ok 6, st ++ trueBuf) else (.ok 7, st ++ falseBuf)
  | .VUint8 n => (.ok 2, st ++ [97, n % 256])
  | .VInt .i16 d => encodeSignedBig 2 d st
  | .VInt .i32 d => encodeSignedBig 4 d st
  | .VInt .i64 d => encodeSignedBig 8 d st
  | .VInt .i8 _ => (.fail 0 .ErrUnsupportedTypeEncode, st)
  | .VInt .iInt _ => (.fail 0 .ErrUnsupportedTypeEncode, st)
  | .VUint .u16 d => encodeUnsignedBig 2 d st
  | .VUint .u32 d => encodeUnsignedBig 4 d st
  | .VUint .u64 d => encodeUnsignedBig 8 d st
  | .VUint .uInt _ => (.fail 0 .ErrUnsupportedTypeEncode, st)
  | .VFloat bits => (.ok 9, st ++ [70] ++ be64 (bits % 18446744073709551616))
  | .VString s =>
      if ab then encodeAsBinaryETF s st
      else if s.length < 65535 then
        (.ok (3 + s.length), st ++ [107] ++ le16 s.length ++ s)
      else sliceBody s.length st
  | .VSlice elems => sliceBody elems.length st
  | .VStruct fields =>
      if fields.length ≥ 2147483647 then (.gopanic .structTooManyFields, st)
      else
        match hpf : projectFields fields [] with
        | .error p => (.gopanic p, st)
        | .ok mapped => encode ab (.VMap true (toPairs mapped)) nest st
  | .VMap keyStr pairs =>
      if keyStr = false then (.gopanic .mapKeyNotString, st)
      else if pairs.length > 4294967295 then (.fail 0 .ErrTooManyPairs, st)
      else encodePairs ab pairs nest (st ++ [116] ++ be32 pairs.length) 5
termination_by gsize v
decreasing_by
  · simp [gsize] <;> omega
  · have h1 := pairsSize_toPairs mapped
    have h2 := projectFields_bindsSize fields [] mapped hpf
    simp only [gsize, bindsSize] at *
    omega
  · simp [gsize] <;> omega

/-- The pair loop of the map case (encode.go lines 260-274): for each pair,
encode `k.Interface()` then `v.Interface()` with `nest-1`, accumulating the
byte count, returning the count so far with the first error. -/
def encodePairs (ab : Bool) (pairs : List (GoValue × GoValue)) (nest : Int)
    (st : Buf) (n : Nat) : EncRes × Buf :=
  match pairs with
  | [] => (.ok n, st)
  | (k, v) :: rest =>
      match encode ab k (nest - 1) st with
      | (.ok kl, st1) =>
          match encode ab v (nest - 1) st1 with
          | (.ok vl, st2) => encodePairs ab rest nest st2 (n + kl + vl)
          | (.fail _ e, st2) => (.fail (n + kl) e, st2)
          | (.gopanic p, st2) => (.gopanic p, st2)
      | (.fail _ e, st1) => (.fail n e, st1)
      | (.gopanic p, st1) => (.gopanic p, st1)
termination_by pairsSize pairs
decreasing_by
  · simp [pairsSize] <;> omega
  · simp [pairsSize] <;> omega
  · simp [pairsSize] <;> omega
end

/-- `func (e *encoder) EncodeAsETF(v any) (n int, err error)
{ return e.encode(v, DefaultBufferSize) }` (encode.go line 94).  Note the
source passes `DefaultBufferSize` — not `DefaultEncodeRecursionDepth` — as
the depth argument. -/
def EncodeAsETF (ab : Bool) (v : GoValue) (st : Buf) : EncRes × Buf :=
  encode ab v (DefaultBufferSize : Int) st

/-- The buffer contents produced by `NewEncoder` (encode.go lines 45-59).
The argument is `none` for a nil `[]byte`, or `some (data, cap)` for a
slice with contents `data` and capacity `cap`.

* A nil or zero-capacity argument is replaced by
  `make([]byte, DefaultBufferSize)` — a slice of **length**
  `DefaultBufferSize`, all zero bytes (the function's own comment says
  `cap`, but `make` with one size argument sets the length);
* a smaller-capacity argument is replaced by a fresh zeroed slice of that
  length with the old bytes copied over the front;
* `bytes.NewBuffer(buf)` takes `buf` as the buffer's initial **contents**,
  and `WriteByte(TermFormatVersion)` (which cannot fail on a
  `bytes.Buffer`) appends `131` after them. -/
def newEncoderContents (buf : Option (List Nat × Nat)) : Buf :=
  match buf with
  | none => List.replicate DefaultBufferSize 0 ++ [131]
  | some (data, c) =>
      if c = 0 then List.replicate DefaultBufferSize 0 ++ [131]
      else if c < DefaultBufferSize then
        (data ++ List.replicate (DefaultBufferSize - data.length) 0) ++ [131]
      else data ++ [131]

/-- A chain of `n` non-nil pointers ending in the value `true`; its nesting
depth through indirections is `n`. -/
def deepPtr : Nat → GoValue
  | 0 => .VBool true
  | n + 1 => .VPtr (some (deepPtr n))

/-- The projection loop applied to the fields of `reflect.Value` indeed
panics on the first field, exactly as `encodeReflectValue` records. -/
theorem encodeReflectValue_matches_projection (st : Buf) :
    projectFields reflectValueFields [] = .error .unexportedField ∧
    encodeReflectValue st = (.gopanic .unexportedField, st) := by
  exact ⟨rfl, rfl⟩

/-- A positive element count makes the element loop panic at its first
iteration, leaving the buffer as it was when the loop started. -/
theorem encodeElems_pos (c : Nat) (h : 0 < c) (st : Buf) (n : Nat) :
    encodeElems c st n = (.gopanic .unexportedField, st) := by
  obtain ⟨k, rfl⟩ : ∃ k, c = k + 1 := ⟨c - 1, by omega⟩
  simp [encodeElems, encodeReflectValue]

/-- The array/slice body on an empty value: header, then `nilBuf`. -/
theorem sliceBody_zero (st : Buf) :
    sliceBody 0 st = (.ok 5, st ++ [108, 0, 0, 0, 0] ++ nilBuf) := by
  simp [sliceBody, encodeElems, be32]

/-- The array/slice body on a non-empty value of admissible length:
header, then a panic from the first element. -/
theorem sliceBody_pos (len : Nat) (h1 : 0 < len) (h2 : len ≤ 4294967295) (st : Buf) :
    sliceBody len st = (.gopanic .unexportedField, st ++ [108] ++ be32 len) := by
  have h3 : ¬ len > 4294967295 := by omega
  simp [sliceBody, h3, encodeElems_pos len h1]

/-- Encoding a chain of non-nil pointers just strips the pointers: each
level recurses with `nest-1`, and the budget is never examined. -/
theorem encode_deepPtr (ab : Bool) (n : Nat) (nest : Int) (st : Buf) :
    encode ab (deepPtr n) nest st = (.ok 6, st ++ trueBuf) := by
  induction n generalizing nest with
  | zero => simp [deepPtr, encode]
  | succ k ih => simp [deepPtr, encode, ih]

/-- The boolean `true` encodes as the constant `trueBuf` appended to the
buffer, whatever the buffer, switch and budget are. -/
theorem encode_true (ab : Bool) (nest : Int) (st : Buf) :
    encode ab (.VBool true) nest st = (.ok 6, st ++ trueBuf) := by
  simp [encode]

/-- With the always-binary switch off, a string whose length is at least
65535 (and within the 32-bit list bound) falls through into the
array/slice body: the List header is written and the first element then
panics. -/
theorem encode_string_long (s : List Nat) (st : Buf)
    (hge : 65535 ≤ s.length) (hle : s.length ≤ 4294967295) :
    EncodeAsETF false (.VString s) st =
      (.gopanic .unexportedField, st ++ [108] ++ be32 s.length) := by
  have h1 : ¬ s.length < 65535 := by omega
  have h2 : 0 < s.length := by omega
  simp [EncodeAsETF, encode, h1, sliceBody_pos _ h2 hle]

/-- C1: the stream produced by `NewEncoder(nil)` followed by
`EncodeAsETF(true)` is NOT `[131, 119, 4, 't', 'r', 'u', 'e']`: because
`NewEncoder` builds the backing slice with `make([]byte, DefaultBufferSize)`
(length, not capacity) and `bytes.NewBuffer` adopts it as initial contents,
the stream is 1048576 zero bytes, then the version byte, then the atom. -/
theorem c1_newEncoder_true_stream :
    (EncodeAsETF true (.VBool true) (newEncoderContents none)).2 =
      List.replicate 1048576 0 ++ [131, 119, 4, 116, 114, 117, 101] ∧
    (EncodeAsETF true (.VBool true) (newEncoderContents none)).2 ≠
      [131, 119, 4, 116, 114, 117, 101] := by
  have h : (EncodeAsETF true (.VBool true) (newEncoderContents none)).2 =
      List.replicate 1048576 0 ++ [131, 119, 4, 116, 114, 117, 101] := by
    rw [EncodeAsETF, encode_true]
    show (List.replicate DefaultBufferSize 0 ++ [131]) ++ trueBuf = _
    rw [List.append_assoc]
    norm_num [DefaultBufferSize, trueBuf]
  refine ⟨h, ?_⟩
  rw [h]
  intro heq
  have hlen := congrArg List.length heq
  rw [List.length_append, List.length_replicate] at hlen
  norm_num at hlen

/-- C2: integers wider than 8 bits do not get a well-formed big-integer
term.  The magnitude loop writes `buf[3+enc]` on a slice of length 3, so
any value whose (sign-adjusted) magnitude is positive panics with an
index-out-of-range; the value 0 escapes the loop but then has the full
fixed-width little-endian word appended after the zero magnitude count. -/
theorem c2_wide_integer_code_eval :
    EncodeAsETF true (.VUint .u16 1) [] = (.gopanic .indexOutOfRange, []) ∧
    EncodeAsETF true (.VInt .i16 1) [] = (.gopanic .indexOutOfRange, []) ∧
    EncodeAsETF true (.VInt .i64 (-1)) [] = (.gopanic .indexOutOfRange, []) ∧
    EncodeAsETF true (.VUint .u16 0) [] = (.ok 7, [110, 0, 0, 0, 0, 0, 0]) := by
  refine ⟨?_, ?_, ?_, ?_⟩ <;>
    norm_num [EncodeAsETF, encode, encodeUnsignedBig, encodeSignedBig, i64neg,
      wrap64, le32]

/-- C3: the recursion-depth budget is dead: `encode` decrements `nest` but
never tests it, so a value nested more deeply than both the configured
depth (`DefaultEncodeRecursionDepth`) and the value actually passed as the
budget (`DefaultBufferSize`, see `EncodeAsETF`) still encodes successfully
instead of failing with `ErrEncodeRecursionDepthExceeded`. -/
theorem c3_depth_budget_ignored :
    DefaultBufferSize + 100 > DefaultBufferSize ∧
    DefaultBufferSize + 100 > DefaultEncodeRecursionDepth ∧
    EncodeAsETF true (deepPtr (DefaultBufferSize + 100)) [] = (.ok 6, trueBuf) := by
  refine ⟨by norm_num, by norm_num [DefaultBufferSize, DefaultEncodeRecursionDepth], ?_⟩
  simpa using encode_deepPtr true (DefaultBufferSize + 100) (DefaultBufferSize : Int) []

/-- C4 counterexample: with the always-binary switch off, the string of
65535 characters `a` — whose length is below 65536, so the claim requires
the String form — is not encoded in String form at all: the encoder falls
into the array/slice case and panics while encoding the first element. -/
theorem c4_counterexample :
    (65535 : Nat) < 65536 ∧
    (EncodeAsETF false (.VString (List.replicate 65535 97)) []).1 =
      .gopanic .unexportedField := by
  refine ⟨by norm_num, ?_⟩
  rw [encode_string_long (List.replicate 65535 97) []
    (by rw [List.length_replicate]) (by rw [List.length_replicate]; norm_num)]

/-- C4 as amended: with the always-binary switch off, a string of length
below 65535 is emitted in String form (tag 107, two little-endian length
bytes, raw bytes); a string of length 65535 or more is not given the
Binary form but falls through into the array/slice case, which writes the
List header (tag 108, four big-endian length bytes) and then panics while
encoding the first element, because elements are handed to `encode` as
`reflect.Value` values. -/
theorem c4_amended (s : List Nat) (st : Buf) :
    (s.length < 65535 →
      EncodeAsETF false (.VString s) st =
        (.ok (3 + s.length), st ++ [107] ++ le16 s.length ++ s)) ∧
    (65535 ≤ s.length → s.length ≤ 4294967295 →
      EncodeAsETF false (.VString s) st =
        (.gopanic .unexportedField, st ++ [108] ++ be32 s.length)) := by
  constructor
  · intro h
    simp [EncodeAsETF, encode, h]
  · intro hge hle
    exact encode_string_long s st hge hle

/-- C4 witness: the amended statement at the empty string and at the
65535-character string. -/
theorem c4_amended_witness :
    EncodeAsETF false (.VString []) [131] = (.ok 3, [131, 107, 0, 0]) ∧
    EncodeAsETF false (.VString (List.replicate 65535 97)) [] =
      (.gopanic .unexportedField, [108] ++ be32 65535) := by
  have h1 := (c4_amended [] [131]).1 (by simp)
  have h2 := (c4_amended (List.replicate 65535 97) []).2
    (by rw [List.length_replicate]) (by rw [List.length_replicate]; norm_num)
  constructor
  · simpa [le16] using h1
  · rw [h2, List.length_replicate, List.nil_append]

/-- C5 counterexample: the empty sequence does not yield the six bytes
`[108, 0, 0, 0, 0, 106]` the claim requires; the trailing terminator is the
five-byte nil-atom buffer `[119, 3, 'n', 'i', 'l']`, not the single Nil tag
byte 106, so the term is ten bytes long. -/
theorem c5_counterexample :
    (EncodeAsETF true (.VSlice []) []).2 = [108, 0, 0, 0, 0, 119, 3, 110, 105, 108] ∧
    (EncodeAsETF true (.VSlice []) []).2 ≠ [108, 0, 0, 0, 0, 106] := by
  have h : (EncodeAsETF true (.VSlice []) []).2 =
      [108, 0, 0, 0, 0, 119, 3, 110, 105, 108] := by
    simp [EncodeAsETF, encode, sliceBody, encodeElems, be32, nilBuf]
  refine ⟨h, ?_⟩
  rw [h]
  decide

/-- C5 as amended: every array or slice of admissible length starts with
`[108]` and the four big-endian count bytes; an empty sequence then appends
the nil-atom buffer `[119, 3, 'n', 'i', 'l']` (ten bytes in total, not six,
and ending in the nil atom rather than the Nil tag 106), while a non-empty
sequence panics while encoding its first element, because elements are
handed to `encode` as `reflect.Value` values. -/
theorem c5_amended (ab : Bool) (elems : List GoValue) (st : Buf)
    (h : elems.length ≤ 4294967295) :
    (elems = [] →
      EncodeAsETF ab (.VSlice elems) st =
        (.ok 5, st ++ [108, 0, 0, 0, 0] ++ nilBuf)) ∧
    (elems ≠ [] →
      EncodeAsETF ab (.VSlice elems) st =
        (.gopanic .unexportedField, st ++ [108] ++ be32 elems.length)) := by
  constructor
  · rintro rfl
    simp [EncodeAsETF, encode, sliceBody_zero]
  · intro hne
    have hpos : 0 < elems.length := List.length_pos.mpr hne
    simp [EncodeAsETF, encode, sliceBody_pos _ hpos h]

/-- C5 witness: the amended statement at the empty slice and at the
singleton slice `[true]`. -/
theorem c5_amended_witness :
    EncodeAsETF true (.VSlice []) [] = (.ok 5, [108, 0, 0, 0, 0] ++ nilBuf) ∧
    EncodeAsETF true (.VSlice [.VBool true]) [] =
      (.gopanic .unexportedField, [108] ++ be32 1) := by
  have h1 := (c5_amended true [] [] (by simp)).1 rfl
  have h2 := (c5_amended true [.VBool true] [] (by simp)).2 (by simp)
  exact ⟨by simpa using h1, by simpa using h2⟩

/-- C6: a typed nil pointer does not serialize as the nil atom: the pointer
case calls `reflect.ValueOf(v).Elem().Interface()`, `Elem()` of a nil
pointer is the zero `reflect.Value`, and `Interface()` on it panics; the
buffer is left untouched and no nil atom is written. -/
theorem c6_nil_pointer_panics (ab : Bool) (st : Buf) :
    EncodeAsETF ab (.VPtr none) st = (.gopanic .zeroValueInterface, st) := by
  simp [EncodeAsETF, encode]

/-- C7: a sequence, string-keyed map, or byte blob whose length exceeds the
32-bit length-field capacity is rejected with its matching typed error
before anything is written: the buffer after the failing call is exactly
the buffer before it, and the returned byte count is 0. -/
theorem c7_oversized_rejected_before_write :
    (∀ (ab : Bool) (elems : List GoValue) (st : Buf), elems.length > 4294967295 →
      EncodeAsETF ab (.VSlice elems) st = (.fail 0 .ErrListTooLarge, st)) ∧
    (∀ (ab : Bool) (pairs : List (GoValue × GoValue)) (st : Buf),
      pairs.length > 4294967295 →
      EncodeAsETF ab (.VMap true pairs) st = (.fail 0 .ErrTooManyPairs, st)) ∧
    (∀ (p : List Nat) (st : Buf), p.length > 4294967295 →
      encodeAsBinaryETF p st = (.fail 0 .ErrStringTooLong, st)) := by
  refine ⟨?_, ?_, ?_⟩
  · intro ab elems st h
    simp [EncodeAsETF, encode, sliceBody, h]
  · intro ab pairs st h
    simp [EncodeAsETF, encode, h]
  · intro p st h
    simp [encodeAsBinaryETF, h]

/-- C7 witness: the three oversized rejections at concrete inputs of length
4294967296. -/
theorem c7_oversized_witness :
    EncodeAsETF true (.VSlice (List.replicate 4294967296 .VNilIface)) [] =
      (.fail 0 .ErrListTooLarge, []) ∧
    EncodeAsETF true
        (.VMap true (List.replicate 4294967296 (.VNilIface, .VNilIface))) [] =
      (.fail 0 .ErrTooManyPairs, []) ∧
    encodeAsBinaryETF (List.replicate 4294967296 0) [] =
      (.fail 0 .ErrStringTooLong, []) := by
  exact ⟨c7_oversized_rejected_before_write.1 true _ []
      (by rw [List.length_replicate]; norm_num),
    c7_oversized_rejected_before_write.2.1 true _ []
      (by rw [List.length_replicate]; norm_num),
    c7_oversized_rejected_before_write.2.2 _ []
      (by rw [List.length_replicate]; norm_num)⟩

/-- C8: the contract-violating inputs panic immediately: any value of kind
Chan, Func, Complex64, Complex128, Uintptr or UnsafePointer panics
unconditionally, and a map whose key kind is not String panics before any
byte of the map term reaches the buffer (the buffer after the call is the
buffer before it). -/
theorem c8_contract_violations_panic :
    (∀ (ab : Bool) (k : BadKind) (st : Buf),
      EncodeAsETF ab (.VBad k) st = (.gopanic .invalidTypeSerialize, st)) ∧
    (∀ (ab : Bool) (pairs : List (GoValue × GoValue)) (st : Buf),
      EncodeAsETF ab (.VMap false pairs) st = (.gopanic .mapKeyNotString, st)) := by
  constructor
  · intro ab k st
    simp [EncodeAsETF, encode]
  · intro ab pairs st
    simp [EncodeAsETF, encode]

/-- C9: the encoding kind is not independent of the declared integer type:
an unsigned 8-bit value is indeed `[97, value]`, but the kinds `Int8`,
`Int` and `Uint` appear in no case of the dispatch switch and are rejected
with `ErrUnsupportedTypeEncode` instead of taking the big-integer form. -/
theorem c9_integer_kind_dispatch :
    EncodeAsETF true (.VInt .i8 5) [] = (.fail 0 .ErrUnsupportedTypeEncode, []) ∧
    EncodeAsETF true (.VInt .iInt 5) [] = (.fail 0 .ErrUnsupportedTypeEncode, []) ∧
    EncodeAsETF true (.VUint .uInt 5) [] = (.fail 0 .ErrUnsupportedTypeEncode, []) ∧
    EncodeAsETF true (.VUint8 200) [] = (.ok 2, [97, 200]) := by
  refine ⟨?_, ?_, ?_, ?_⟩ <;> simp [EncodeAsETF, encode]

/-- C10: the encoder's `Write` method is `EncodeAsBinaryETF` verbatim: it
never appends the raw argument bytes, but emits the Binary term — tag 109
and four big-endian length bytes — before them. -/
theorem c10_write_encodes_binary (p : List Nat) (st : Buf) :
    encWrite p st = encodeAsBinaryETF p st ∧
    (p.length ≤ 4294967295 →
      encWrite p st = (.ok (5 + p.length), st ++ [109] ++ be32 p.length ++ p)) := by
  constructor
  · rfl
  · intro h
    have h2 : ¬ p.length > 4294967295 := by omega
    simp [encWrite, encodeAsBinaryETF, h2]

/-- C10 witness: `Write` at the bytes `[1, 2, 3]` with a buffer holding the
version byte. -/
theorem c10_write_witness :
    encWrite [1, 2, 3] [131] = encodeAsBinaryETF [1, 2, 3] [131] ∧
    encWrite [1, 2, 3] [131] = (.ok 8, [131, 109, 0, 0, 0, 3, 1, 2, 3]) := by
  have h := c10_write_encodes_binary [1, 2, 3] [131]
  refine ⟨h.1, ?_⟩
  have h2 := h.2 (by norm_num)
  simpa [be32] using h2

end Erltf
